import Mathlib

/-!
Shallow embedding of the Go package `logging` (src/logging/logging.go),
a structured JSON logging facility.  Go maps from string to string are
modelled as association lists with overwriting insertion; the external
collaborators (the wall clock, the call stack, `os.Args`) are passed in
explicitly as a context.  The `{{.name}}` field-reference fragment of the
Go standard library package text/template, which `logGenericArgs`
delegates template parsing and execution to, is modelled by an explicit
parser and evaluator below.
-/

namespace Logging

/-- `type Args map[string]string`, modelled as an association list whose
keys are unique (Go maps cannot hold duplicate keys).  Uniqueness is a
hypothesis where a theorem needs it. -/
abbrev Args : Type := List (String × String)

/-- Go map read `m[k]`: first (unique) binding of `k`, if any. -/
def lookupArg (args : Args) (k : String) : Option String :=
  match args with
  | [] => none
  | (k', v) :: rest => if k' = k then some v else lookupArg rest k

/-- Go map assignment `m[k] = v`: overwrite the binding of `k` if present,
otherwise append a new binding. -/
def insertArg (args : Args) (k : String) (v : String) : Args :=
  match args with
  | [] => [(k, v)]
  | (k', v') :: rest => if k' = k then (k, v) :: rest else (k', v') :: insertArg rest k v

/-- The keys of an argument map. -/
def argKeys (args : Args) : List String := args.map Prod.fst

/-- `type Logger struct { Level string; IsFatal bool }` -/
structure Logger where
  Level : String
  IsFatal : Bool
deriving DecidableEq, Repr

/-! ### Model of the text/template fragment used by the logger

`logGenericArgs` parses `msgTemplate` with `template.New("").Parse` and
executes it against the `Args` map.  The templates this logger is used
with are built from literal text and field references `{{.name}}` (with
optional chains `{{.a.b}}`); we model exactly that fragment.  Executing a
single field reference against a `map[string]string` yields the map value,
or the literal `<no value>` when the key is absent; a chained reference
always fails at execution time because the map's values are strings.
Malformed action syntax (an unterminated `{{`, a bad character after
`{{.`) is a parse error. -/

/-- One parsed template node: a literal character or a field reference
`{{.n.n1...}}` with head identifier `n` and chain `ns`. -/
inductive TmplPart where
  | text : Char → TmplPart
  | field : List Char → List (List Char) → TmplPart
deriving DecidableEq, Repr

/-- Characters allowed in a template field identifier. -/
def isIdentChar (c : Char) : Bool := c.isAlphanum || c == '_'

/-- Read the identifier chain `.a.b...` terminated by a closing brace
pair inside an action; fuelled for structural termination.  Returns the
identifiers and the remaining input. -/
def readChain : Nat → List Char → Except String (List (List Char) × List Char)
  | _, '}' :: '}' :: rest => .ok ([], rest)
  | fuel + 1, '.' :: rest =>
    let ident := rest.takeWhile isIdentChar
    let rest' := rest.dropWhile isIdentChar
    if ident = [] then .error "unexpected bad character in command"
    else
      match readChain fuel rest' with
      | .ok (ids, r) => .ok (ident :: ids, r)
      | .error e => .error e
  | _ + 1, _ => .error "bad character in action"
  | 0, _ => .error "unclosed action"

/-- Scan a template into parts: literal characters, with a brace pair
opening an action. -/
def scanTmpl : Nat → List Char → Except String (List TmplPart)
  | _, [] => .ok []
  | fuel + 1, '{' :: '{' :: rest =>
    match readChain fuel rest with
    | .ok (i :: ids, r) =>
      match scanTmpl fuel r with
      | .ok parts => .ok (TmplPart.field i ids :: parts)
      | .error e => .error e
    | .ok ([], _) => .error "missing value for command"
    | .error e => .error e
  | fuel + 1, c :: rest =>
    match scanTmpl fuel rest with
    | .ok parts => .ok (TmplPart.text c :: parts)
    | .error e => .error e
  | 0, _ => .error "unclosed action"

/-- `template.New("").Parse(msgTemplate)`, on the modelled fragment. -/
def parseTmpl (s : String) : Except String (List TmplPart) :=
  scanTmpl (s.data.length + 1) s.data

/-- Execute one template node against the argument map. -/
def execPart (args : Args) : TmplPart → Except String String
  | .text c => .ok (String.mk [c])
  | .field n ns =>
    match ns with
    | [] =>
      match lookupArg args (String.mk n) with
      | some v => .ok v
      | none => .ok "<no value>"
    | n1 :: _ =>
      .error (String.mk n1 ++ " is not a field of a string value")

/-- `t.Execute(&buf, args)`: execute all nodes and concatenate. -/
def execTmpl (args : Args) : List TmplPart → Except String String
  | [] => .ok ""
  | p :: rest =>
    match execPart args p with
    | .ok s =>
      match execTmpl args rest with
      | .ok s' => .ok (s ++ s')
      | .error e => .error e
    | .error e => .error e

/-! ### Scalar formatters (strconv)

`strconv.Itoa` / `strconv.FormatInt(_, 10)` / `strconv.FormatUint(_, 10)`
all produce the base-10 decimal representation; we model that
representation directly. -/

/-- The ASCII digit character for `n < 10`. -/
def digitChar (n : Nat) : Char := Char.ofNat (48 + n)

/-- Decimal digit characters of a natural number, most significant first;
fuelled for structural termination (the fuel `n + 1` always suffices). -/
def natDigitsF : Nat → Nat → List Char
  | 0, _ => []
  | fuel + 1, n =>
    if n < 10 then [digitChar n]
    else natDigitsF fuel (n / 10) ++ [digitChar (n % 10)]

/-- Decimal digit characters of a natural number. -/
def natDigits (n : Nat) : List Char := natDigitsF (n + 1) n

/-- `strconv.FormatUint(n, 10)`. -/
def formatUintDec (n : Nat) : String := String.mk (natDigits n)

/-- `strconv.Itoa` / `strconv.FormatInt(i, 10)`: a minus sign followed by
the decimal digits of the magnitude for negative values, plain digits
otherwise. -/
def formatIntDec (i : ℤ) : String :=
  if i < 0 then "-" ++ formatUintDec (-i).toNat else formatUintDec i.toNat

/-! ### Stack inspector -/

/-- One frame of the runtime call stack as exposed by `runtime.Caller` and
`runtime.FuncForPC`: the source file path, the 1-based line, and the fully
qualified function name when `FuncForPC` resolves it (`none` models a nil
`*runtime.Func`). -/
structure Frame where
  file : String
  line : Nat
  funcName : Option String
deriving DecidableEq, Repr

/-- `runtime.Caller(skip)` against an explicit stack: the frame `skip + 1`
levels up, if the stack is that deep. -/
def runtimeCaller (stack : List Frame) (skip : Nat) : Option Frame :=
  stack.get? (skip + 1)

/-- `filepath.Base`: the last element of the path after trimming trailing
separators; `"."` for the empty path and `"/"` when only separators
remain. -/
def filepathBase (p : String) : String :=
  if p = "" then "."
  else
    let trimmedRev := p.data.reverse.dropWhile (· == '/')
    if trimmedRev = [] then "/"
    else String.mk (trimmedRev.takeWhile (· != '/')).reverse

/-- `filepath.Ext`: the suffix starting at the final dot in the final
slash-separated element, empty if there is none. -/
def filepathExt (p : String) : String :=
  let r := p.data.reverse
  match r.dropWhile (fun c => c != '.' && c != '/') with
  | '.' :: _ => String.mk ('.' :: (r.takeWhile (fun c => c != '.' && c != '/')).reverse)
  | _ => ""

/-- `strings.TrimLeft(s, ".")`: drop every leading dot. -/
def trimLeftDots (s : String) : String := String.mk (s.data.dropWhile (· == '.'))

/-- `GetStackInfo` returns the file, function, and line of the stack frame
specified by `stackDepth`, with sentinel fallbacks `("?", "?()", "0")`. -/
def GetStackInfo (stack : List Frame) (stackDepth : Nat) : String × String × String :=
  match runtimeCaller stack (stackDepth + 1) with
  | none => ("?", "?()", "0")
  | some fr =>
    let resultFile := filepathBase fr.file
    let resultLine := formatIntDec fr.line
    let resultFunc :=
      match fr.funcName with
      | none => "?()"
      | some fn => trimLeftDots (filepathExt fn) ++ "()"
    (resultFile, resultFunc, resultLine)

/-! ### Record assembly (`logGenericArgs`) -/

/-- The process-wide context that the Go code reads from the outside
world: the runtime call stack at the point of the call, the formatted
wall-clock time `time.Now().Format(time.RFC3339Nano)`, and the cached
`filepath.Base(os.Args[0])`. -/
structure LogCtx where
  stack : List Frame
  now : String
  exeName : String

/-- The record field name carrying the value of argument `k`:
`"arg_" + k`. -/
def argFieldName (k : String) : String := "arg_" ++ k

/-- The names of the fixed (non-`arg_`-prefixed) record fields, the
optional `error` field included. -/
def fixedFieldNames : List String :=
  ["msg", "msgTemplate", "time", "level", "file", "func", "line", "process", "error"]

/-- The template-rendering step of `logGenericArgs`: if `args` is absent
the template is the message verbatim; otherwise parse and execute it,
and on either failure store the error message under the `_templateErr`
key of the caller's map and keep the raw template as the message.
Returns the rendered message and the argument map as the caller observes
it after the call (Go maps are reference values, so the insertion mutates
the caller's map). -/
def renderMsg (msgTemplate : String) (args : Option Args) : String × Option Args :=
  match args with
  | none => (msgTemplate, none)
  | some a =>
    match parseTmpl msgTemplate with
    | .error templateErr => (msgTemplate, some (insertArg a "_templateErr" templateErr))
    | .ok t =>
      match execTmpl a t with
      | .error templateErr => (msgTemplate, some (insertArg a "_templateErr" templateErr))
      | .ok rendered => (rendered, some a)

/-- The fixed fields of the record, in the order the Go map literal lists
them. -/
def baseFields (logger : Logger) (ctx : LogCtx) (msgTemplate msg file function line : String) :
    Args :=
  [("msgTemplate", msgTemplate), ("msg", msg), ("time", ctx.now), ("level", logger.Level),
   ("file", file), ("func", function), ("line", line), ("process", ctx.exeName)]

/-- `for k, v := range args { fullArgs["arg_"+k] = v }`. -/
def addArgFields (args : Option Args) (fullArgs : Args) : Args :=
  (args.getD []).foldl (fun fa kv => insertArg fa (argFieldName kv.1) kv.2) fullArgs

/-- `if err != nil { fullArgs["error"] = err.Error() }`; the Go `error` is
modelled by its message string. -/
def addErrField (err : Option String) (fullArgs : Args) : Args :=
  match err with
  | none => fullArgs
  | some e => insertArg fullArgs "error" e

/-- The observable outcome of one `logGenericArgs` call: the records
passed to `jsonWriter.Encode` in order, the panic message if the call
panics, and the caller's argument map after the call (`none` when no map
was supplied). -/
structure LogResult where
  records : List Args
  panicMsg : Option String
  finalArgs : Option Args
deriving DecidableEq

/-- The `fullArgs` map of `logGenericArgs`: the fixed fields, then one
prefixed field per argument, then the optional `error` field. -/
def assembleRecord (logger : Logger) (ctx : LogCtx)
    (msgTemplate msg file function line : String) (args : Option Args)
    (err : Option String) : Args :=
  addErrField err (addArgFields args (baseFields logger ctx msgTemplate msg file function line))

/-- `logGenericArgs`: render the message, assemble the record, emit it,
then panic with the rendered message iff the logger is fatal. -/
def logGenericArgs (logger : Logger) (ctx : LogCtx) (msgTemplate : String)
    (err : Option String) (args : Option Args) (stackDepth : Nat) : LogResult :=
  let info := GetStackInfo ctx.stack (stackDepth + 1)
  let rendered := renderMsg msgTemplate args
  { records := [assembleRecord logger ctx msgTemplate rendered.1 info.1 info.2.1 info.2.2
      rendered.2 err]
    panicMsg := if logger.IsFatal then some rendered.1 else none
    finalArgs := rendered.2 }

/-- The one record a `logGenericArgs` call passes to the emitter. -/
def emittedRecord (logger : Logger) (ctx : LogCtx) (msgTemplate : String)
    (err : Option String) (args : Option Args) (stackDepth : Nat) : Args :=
  ((logGenericArgs logger ctx msgTemplate err args stackDepth).records).headD []

/-! ### Level registry -/

def traceLogger : Logger := { Level := "trace", IsFatal := false }

def debugLogger : Logger := { Level := "debug", IsFatal := false }

def infoLogger : Logger := { Level := "info", IsFatal := false }

def warnLogger : Logger := { Level := "warn", IsFatal := false }

def errorLogger : Logger := { Level := "error", IsFatal := false }

def fatalLogger : Logger := { Level := "fatal", IsFatal := true }

/-- `func Trace() *Logger { return traceLogger }` -/
def Trace : Logger := traceLogger

/-- `func Debug() *Logger { return debugLogger }` -/
def Debug : Logger := debugLogger

/-- `func Info() *Logger { return infoLogger }` -/
def Info : Logger := infoLogger

/-- `func Warn() *Logger { return warnLogger }` -/
def Warn : Logger := warnLogger

/-- `func Error() *Logger { return errorLogger }` -/
def Error : Logger := errorLogger

/-- `func Fatal() *Logger { return fatalLogger }` -/
def Fatal : Logger := fatalLogger

/-! ### Integer convenience formatters -/

/-- `func Int(i int) string` (`strconv.Itoa`; `int` is 64-bit). -/
def Int (i : ℤ) : String := formatIntDec i

/-- `func Int64(i int64) string`. -/
def Int64 (i : ℤ) : String := formatIntDec i

/-- `func Int32(i int32) string` (widened to `int64`, then formatted). -/
def Int32 (i : ℤ) : String := formatIntDec i

/-- `func Uint32(i uint32) string` (widened to `uint64`, then formatted). -/
def Uint32 (n : Nat) : String := formatUintDec n

/-- `func Uint64(i uint64) string`. -/
def Uint64 (n : Nat) : String := formatUintDec n

/-- Modelled from the spec: "parsing the output back reproduces the
original value exactly" — the round-trip parser for decimal strings
(Go `strconv.ParseInt`/`ParseUint` on base 10), which this repository
does not itself contain.  Digits accumulate most significant first. -/
def parseNatAux : List Char → Nat → Option Nat
  | [], acc => some acc
  | c :: rest, acc =>
    if 48 ≤ c.toNat ∧ c.toNat ≤ 57 then parseNatAux rest (acc * 10 + (c.toNat - 48))
    else none

/-- Parse an unsigned decimal string. -/
def parseUintDec (s : String) : Option Nat :=
  if s.data = [] then none else parseNatAux s.data 0

/-- Parse signed decimal digits: an optional minus sign, then digits. -/
def parseIntChars : List Char → Option ℤ
  | [] => none
  | c :: rest =>
    if c = '-' then
      if rest = [] then none else (parseNatAux rest 0).map (fun n => -(n : ℤ))
    else (parseNatAux (c :: rest) 0).map (fun n => (n : ℤ))

/-- Parse a signed decimal string. -/
def parseIntDec (s : String) : Option ℤ := parseIntChars s.data

/-! ### Lemmas about the argument-map operations -/

theorem lookupArg_insertArg_self (l : Args) (k v : String) :
    lookupArg (insertArg l k v) k = some v := by
  induction l with
  | nil => simp [insertArg, lookupArg]
  | cons hd tl ih =>
    obtain ⟨k0, v0⟩ := hd
    by_cases h0 : k0 = k
    · subst h0; simp [insertArg, lookupArg]
    · simp [insertArg, lookupArg, h0, ih]

theorem lookupArg_insertArg_ne (l : Args) (k k' v : String) (h : k ≠ k') :
    lookupArg (insertArg l k v) k' = lookupArg l k' := by
  induction l with
  | nil => simp [insertArg, lookupArg, h]
  | cons hd tl ih =>
    obtain ⟨k0, v0⟩ := hd
    simp only [insertArg]
    by_cases h0 : k0 = k
    · subst h0
      rw [if_pos rfl]
      simp [lookupArg, h]
    · rw [if_neg h0]
      by_cases h1 : k0 = k' <;> simp [lookupArg, h1, ih]

theorem mem_insertArg_self (l : Args) (k v : String) : (k, v) ∈ insertArg l k v := by
  induction l with
  | nil => simp [insertArg]
  | cons hd tl ih =>
    obtain ⟨k0, v0⟩ := hd
    by_cases h0 : k0 = k <;> simp [insertArg, h0, ih]

theorem argKeys_insertArg (l : Args) (k v : String) :
    argKeys (insertArg l k v) =
      if k ∈ argKeys l then argKeys l else argKeys l ++ [k] := by
  induction l with
  | nil => simp [insertArg, argKeys]
  | cons hd tl ih =>
    obtain ⟨k0, v0⟩ := hd
    by_cases h0 : k0 = k
    · subst h0; simp [insertArg, argKeys]
    · have h0' : ¬k = k0 := fun h => h0 h.symm
      simp only [argKeys] at ih ⊢
      simp only [insertArg, if_neg h0]
      by_cases h1 : k ∈ List.map Prod.fst tl
      · simp [ih, h1, List.mem_cons, h0']
      · simp [ih, h1, List.mem_cons, h0']

theorem argKeys_insertArg_nodup (l : Args) (k v : String) (h : (argKeys l).Nodup) :
    (argKeys (insertArg l k v)).Nodup := by
  rw [argKeys_insertArg]
  by_cases h1 : k ∈ argKeys l
  · simpa [h1] using h
  · simp only [h1, if_false]
    exact h.append (List.nodup_singleton k)
      (fun a ha hb => h1 (List.mem_singleton.mp hb ▸ ha))

/-! ### Lemmas about field names -/

theorem argFieldName_data (k : String) :
    (argFieldName k).data = 'a' :: 'r' :: 'g' :: '_' :: k.data := by
  rw [argFieldName, String.data_append]; rfl

theorem argFieldName_inj {k1 k2 : String} (h : argFieldName k1 = argFieldName k2) :
    k1 = k2 := by
  have h2 := congrArg String.data h
  rw [argFieldName_data, argFieldName_data] at h2
  exact String.ext (by simpa using h2)

theorem argFieldName_ne_of_head (k : String) {f : String}
    (h : f.data.head? ≠ some 'a') : argFieldName k ≠ f := by
  intro he
  apply h
  rw [← he, argFieldName_data]
  rfl

/-! ### Lemmas about record assembly -/

theorem lookupArg_foldl_insert_of_ne (l : Args) (fa : Args) (f : String)
    (h : ∀ kv ∈ l, argFieldName kv.1 ≠ f) :
    lookupArg (l.foldl (fun fa kv => insertArg fa (argFieldName kv.1) kv.2) fa) f =
      lookupArg fa f := by
  induction l generalizing fa with
  | nil => rfl
  | cons hd tl ih =>
    rw [List.foldl_cons, ih _ (fun kv hkv => h kv (List.mem_cons_of_mem _ hkv)),
      lookupArg_insertArg_ne _ _ _ _ (h hd (List.mem_cons_self _ _))]

theorem lookupArg_addArgFields_of_ne (args : Option Args) (fa : Args) (f : String)
    (h : ∀ k : String, argFieldName k ≠ f) :
    lookupArg (addArgFields args fa) f = lookupArg fa f := by
  rw [addArgFields]
  exact lookupArg_foldl_insert_of_ne _ _ _ (fun kv _ => h kv.1)

theorem lookupArg_addArgFields_mem (l : Args) (fa : Args) (k v : String)
    (hnd : (argKeys l).Nodup) (hm : (k, v) ∈ l) :
    lookupArg (addArgFields (some l) fa) (argFieldName k) = some v := by
  rw [addArgFields]
  show lookupArg (l.foldl _ fa) _ = some v
  induction l generalizing fa with
  | nil => cases hm
  | cons hd tl ih =>
    obtain ⟨k0, v0⟩ := hd
    have hnd' : (argKeys tl).Nodup := (List.nodup_cons.mp hnd).2
    have hk0 : k0 ∉ argKeys tl := (List.nodup_cons.mp hnd).1
    rw [List.foldl_cons]
    rcases List.mem_cons.mp hm with heq | hmem
    · injection heq with hk hv
      subst hk; subst hv
      have hne : ∀ kv ∈ tl, argFieldName kv.1 ≠ argFieldName k := by
        intro kv hkv he
        exact hk0 (argFieldName_inj he ▸ List.mem_map_of_mem Prod.fst hkv)
      rw [lookupArg_foldl_insert_of_ne tl _ _ hne, lookupArg_insertArg_self]
    · exact ih _ hnd' hmem

theorem fixed_ne_argField (k : String) {f : String} (h : f.data.head? ≠ some 'a') :
    ¬f = argFieldName k :=
  fun he => argFieldName_ne_of_head k h he.symm

theorem lookupArg_baseFields_msg (logger : Logger) (ctx : LogCtx)
    (mt m fi fu li : String) :
    lookupArg (baseFields logger ctx mt m fi fu li) "msg" = some m := by
  simp [baseFields, lookupArg]

theorem lookupArg_baseFields_msgTemplate (logger : Logger) (ctx : LogCtx)
    (mt m fi fu li : String) :
    lookupArg (baseFields logger ctx mt m fi fu li) "msgTemplate" = some mt := by
  simp [baseFields, lookupArg]

theorem lookupArg_baseFields_error (logger : Logger) (ctx : LogCtx)
    (mt m fi fu li : String) :
    lookupArg (baseFields logger ctx mt m fi fu li) "error" = none := by
  simp [baseFields, lookupArg]

theorem lookupArg_baseFields_argField (logger : Logger) (ctx : LogCtx)
    (mt m fi fu li : String) (k : String) :
    lookupArg (baseFields logger ctx mt m fi fu li) (argFieldName k) = none := by
  simp [baseFields, lookupArg, fixed_ne_argField k (f := "msgTemplate") (by decide),
    fixed_ne_argField k (f := "msg") (by decide), fixed_ne_argField k (f := "time") (by decide),
    fixed_ne_argField k (f := "level") (by decide), fixed_ne_argField k (f := "file") (by decide),
    fixed_ne_argField k (f := "func") (by decide), fixed_ne_argField k (f := "line") (by decide),
    fixed_ne_argField k (f := "process") (by decide)]

theorem lookupArg_addErrField_of_ne (err : Option String) (fa : Args) (f : String)
    (h : ("error" : String) ≠ f) :
    lookupArg (addErrField err fa) f = lookupArg fa f := by
  cases err <;> simp [addErrField, lookupArg_insertArg_ne _ _ _ _ h]

theorem lookupArg_addErrField_error (e : String) (fa : Args) :
    lookupArg (addErrField (some e) fa) "error" = some e :=
  lookupArg_insertArg_self fa "error" e

theorem emittedRecord_eq (logger : Logger) (ctx : LogCtx) (msgTemplate : String)
    (err : Option String) (args : Option Args) (stackDepth : Nat) :
    emittedRecord logger ctx msgTemplate err args stackDepth =
      assembleRecord logger ctx msgTemplate (renderMsg msgTemplate args).1
        (GetStackInfo ctx.stack (stackDepth + 1)).1
        (GetStackInfo ctx.stack (stackDepth + 1)).2.1
        (GetStackInfo ctx.stack (stackDepth + 1)).2.2
        (renderMsg msgTemplate args).2 err := rfl

theorem lookupArg_assembleRecord_msg (logger : Logger) (ctx : LogCtx)
    (mt m fi fu li : String) (args : Option Args) (err : Option String) :
    lookupArg (assembleRecord logger ctx mt m fi fu li args err) "msg" = some m := by
  rw [assembleRecord, lookupArg_addErrField_of_ne _ _ _ (by decide),
    lookupArg_addArgFields_of_ne _ _ _ (fun k => argFieldName_ne_of_head k (by decide)),
    lookupArg_baseFields_msg]

theorem lookupArg_assembleRecord_msgTemplate (logger : Logger) (ctx : LogCtx)
    (mt m fi fu li : String) (args : Option Args) (err : Option String) :
    lookupArg (assembleRecord logger ctx mt m fi fu li args err) "msgTemplate" = some mt := by
  rw [assembleRecord, lookupArg_addErrField_of_ne _ _ _ (by decide),
    lookupArg_addArgFields_of_ne _ _ _ (fun k => argFieldName_ne_of_head k (by decide)),
    lookupArg_baseFields_msgTemplate]

theorem lookupArg_emittedRecord_msg (logger : Logger) (ctx : LogCtx) (mt : String)
    (err : Option String) (args : Option Args) (sd : Nat) :
    lookupArg (emittedRecord logger ctx mt err args sd) "msg" =
      some (renderMsg mt args).1 := by
  rw [emittedRecord_eq, lookupArg_assembleRecord_msg]

theorem lookupArg_emittedRecord_msgTemplate (logger : Logger) (ctx : LogCtx) (mt : String)
    (err : Option String) (args : Option Args) (sd : Nat) :
    lookupArg (emittedRecord logger ctx mt err args sd) "msgTemplate" = some mt := by
  rw [emittedRecord_eq, lookupArg_assembleRecord_msgTemplate]

/-! ### Claims -/

/-- C1: every `logGenericArgs` call emits exactly one record, and then
panics with the rendered message (the record's `msg` field) exactly when
the handle's fatal flag is set; a non-fatal handle never panics,
whatever the template, arguments, or error supplied. -/
theorem log_emits_once_and_panics_iff_fatal (logger : Logger) (ctx : LogCtx)
    (msgTemplate : String) (err : Option String) (args : Option Args) (stackDepth : Nat) :
    (logGenericArgs logger ctx msgTemplate err args stackDepth).records =
      [emittedRecord logger ctx msgTemplate err args stackDepth] ∧
    lookupArg (emittedRecord logger ctx msgTemplate err args stackDepth) "msg" =
      some (renderMsg msgTemplate args).1 ∧
    (logGenericArgs logger ctx msgTemplate err args stackDepth).panicMsg =
      (if logger.IsFatal then some (renderMsg msgTemplate args).1 else none) :=
  ⟨rfl, lookupArg_emittedRecord_msg .., rfl⟩

/-- C2: dynamic record field names are collision-free: the `arg_` prefix
map is injective on argument names, and a prefixed name never equals any
of the nine fixed field names. -/
theorem argField_names_collision_free :
    (∀ k1 k2 : String, argFieldName k1 = argFieldName k2 → k1 = k2) ∧
    (∀ (k f : String), f ∈ fixedFieldNames → argFieldName k ≠ f) := by
  refine ⟨fun k1 k2 h => argFieldName_inj h, fun k f hf => ?_⟩
  fin_cases hf <;> exact argFieldName_ne_of_head k (by decide)

/-- Witness for C2 at concrete inputs: two equal argument names map to
equal field names, and the prefixed form of `"msg"` collides with no
fixed field. -/
theorem argField_names_collision_free_witness :
    ("user" : String) = "user" ∧ argFieldName "msg" ≠ "msg" :=
  ⟨argField_names_collision_free.1 "user" "user" rfl,
   argField_names_collision_free.2 "msg" "msg" (by simp [fixedFieldNames])⟩

/-- C5: logging a plain message with no argument set renders identically:
`msg` and `msgTemplate` both hold the message verbatim and the record has
no `arg_`-prefixed field at all. -/
theorem plain_message_renders_verbatim (logger : Logger) (ctx : LogCtx) (msg : String)
    (err : Option String) (sd : Nat) :
    lookupArg (emittedRecord logger ctx msg err none sd) "msg" = some msg ∧
    lookupArg (emittedRecord logger ctx msg err none sd) "msgTemplate" = some msg ∧
    ∀ k : String, lookupArg (emittedRecord logger ctx msg err none sd) (argFieldName k) =
      none := by
  refine ⟨lookupArg_emittedRecord_msg .., lookupArg_emittedRecord_msgTemplate .., fun k => ?_⟩
  rw [emittedRecord_eq, assembleRecord,
    lookupArg_addErrField_of_ne _ _ _ (fixed_ne_argField k (by decide)),
    show (renderMsg msg none).2 = none from rfl]
  rw [show addArgFields none (baseFields logger ctx msg (renderMsg msg none).1
    (GetStackInfo ctx.stack (sd + 1)).1 (GetStackInfo ctx.stack (sd + 1)).2.1
    (GetStackInfo ctx.stack (sd + 1)).2.2) = baseFields logger ctx msg (renderMsg msg none).1
    (GetStackInfo ctx.stack (sd + 1)).1 (GetStackInfo ctx.stack (sd + 1)).2.1
    (GetStackInfo ctx.stack (sd + 1)).2.2 from rfl]
  exact lookupArg_baseFields_argField ..

/-- C6: the emitted record's `error` field equals the supplied error's
message when one was supplied and is absent (`none`, not empty) when not,
for every call. -/
theorem error_field_present_iff_supplied (logger : Logger) (ctx : LogCtx) (mt : String)
    (err : Option String) (args : Option Args) (sd : Nat) :
    lookupArg (emittedRecord logger ctx mt err args sd) "error" = err := by
  rw [emittedRecord_eq, assembleRecord]
  cases err with
  | some e => exact lookupArg_addErrField_error ..
  | none =>
    rw [addErrField,
      lookupArg_addArgFields_of_ne _ _ _ (fun k => argFieldName_ne_of_head k (by decide)),
      lookupArg_baseFields_error]

/-! ### Rendering lemmas and the template claims -/

theorem renderMsg_parse_error {mt : String} {a : Args} {e : String}
    (h : parseTmpl mt = .error e) :
    renderMsg mt (some a) = (mt, some (insertArg a "_templateErr" e)) := by
  simp [renderMsg, h]

theorem renderMsg_exec_error {mt : String} {a : Args} {t : List TmplPart} {e : String}
    (hp : parseTmpl mt = .ok t) (he : execTmpl a t = .error e) :
    renderMsg mt (some a) = (mt, some (insertArg a "_templateErr" e)) := by
  simp [renderMsg, hp, he]

theorem renderMsg_ok {mt : String} {a : Args} {t : List TmplPart} {r : String}
    (hp : parseTmpl mt = .ok t) (he : execTmpl a t = .ok r) :
    renderMsg mt (some a) = (r, some a) := by
  simp [renderMsg, hp, he]

theorem renderMsg_failure {mt : String} {a : Args} {e : String}
    (h : parseTmpl mt = .error e ∨ ∃ t, parseTmpl mt = .ok t ∧ execTmpl a t = .error e) :
    renderMsg mt (some a) = (mt, some (insertArg a "_templateErr" e)) := by
  rcases h with hp | ⟨t, hp, he⟩
  · exact renderMsg_parse_error hp
  · exact renderMsg_exec_error hp he

theorem lookupArg_baseFields_templateErr (logger : Logger) (ctx : LogCtx)
    (mt m fi fu li : String) :
    lookupArg (baseFields logger ctx mt m fi fu li) "_templateErr" = none := by
  simp [baseFields, lookupArg]

/-- On a render failure the emitted record carries the diagnostic under
the prefixed key, the raw template as `msg`, and no unprefixed
`_templateErr` field. -/
theorem emittedRecord_failure (logger : Logger) (ctx : LogCtx) (mt : String)
    (err : Option String) (a : Args) (sd : Nat) (e : String)
    (h : parseTmpl mt = .error e ∨ ∃ t, parseTmpl mt = .ok t ∧ execTmpl a t = .error e)
    (hnd : (argKeys a).Nodup) :
    lookupArg (emittedRecord logger ctx mt err (some a) sd) (argFieldName "_templateErr") =
      some e ∧
    lookupArg (emittedRecord logger ctx mt err (some a) sd) "msg" = some mt ∧
    lookupArg (emittedRecord logger ctx mt err (some a) sd) "_templateErr" = none := by
  refine ⟨?_, ?_, ?_⟩
  · rw [emittedRecord_eq, assembleRecord, renderMsg_failure h,
      lookupArg_addErrField_of_ne _ _ _ (fixed_ne_argField _ (by decide))]
    exact lookupArg_addArgFields_mem _ _ _ _ (argKeys_insertArg_nodup _ _ _ hnd)
      (mem_insertArg_self a "_templateErr" e)
  · rw [lookupArg_emittedRecord_msg, renderMsg_failure h]
  · rw [emittedRecord_eq, assembleRecord,
      lookupArg_addErrField_of_ne _ _ _ (by decide),
      lookupArg_addArgFields_of_ne _ _ _
        (fun k => argFieldName_ne_of_head k (by decide)),
      lookupArg_baseFields_templateErr]

/-- C3: a template that fails to parse never surfaces an error to the
caller; the record instead carries the parse error's message in the
diagnostic field and the raw unrendered template as `msg` (and as
`msgTemplate`). -/
theorem malformed_template_degrades_gracefully (logger : Logger) (ctx : LogCtx)
    (mt : String) (err : Option String) (a : Args) (sd : Nat) (e : String)
    (hp : parseTmpl mt = .error e) (hnd : (argKeys a).Nodup) :
    lookupArg (emittedRecord logger ctx mt err (some a) sd) (argFieldName "_templateErr") =
      some e ∧
    lookupArg (emittedRecord logger ctx mt err (some a) sd) "msg" = some mt ∧
    lookupArg (emittedRecord logger ctx mt err (some a) sd) "msgTemplate" = some mt := by
  obtain ⟨h1, h2, _⟩ := emittedRecord_failure logger ctx mt err a sd e (Or.inl hp) hnd
  exact ⟨h1, h2, lookupArg_emittedRecord_msgTemplate ..⟩

/-- A fixed context used to instantiate the claims at concrete inputs. -/
def sampleCtx : LogCtx :=
  { stack := [{ file := "/app/caller.go", line := 10, funcName := some "app.Caller" },
              { file := "/app/low.go", line := 20, funcName := some "app.Low" },
              { file := "/app/mid.go", line := 30, funcName := some "app.Mid" },
              { file := "/app/main.go", line := 42, funcName := some "app/pkg.Run" }]
    now := "2024-01-01T00:00:00.000000000-07:00"
    exeName := "svc" }

/-- Witness for C3: the unterminated action `"oops \x7b\x7b"` fails to parse
and degrades as stated. -/
theorem malformed_template_degrades_gracefully_witness :
    lookupArg (emittedRecord infoLogger sampleCtx "oops \x7b\x7b" none (some [("user", "alice")]) 0)
      (argFieldName "_templateErr") = some "bad character in action" ∧
    lookupArg (emittedRecord infoLogger sampleCtx "oops \x7b\x7b" none (some [("user", "alice")]) 0)
      "msg" = some "oops \x7b\x7b" ∧
    lookupArg (emittedRecord infoLogger sampleCtx "oops \x7b\x7b" none (some [("user", "alice")]) 0)
      "msgTemplate" = some "oops \x7b\x7b" :=
  malformed_template_degrades_gracefully infoLogger sampleCtx "oops \x7b\x7b" none
    [("user", "alice")] 0 "bad character in action" rfl (by decide)

theorem execTmpl_append {a : Args} {l1 l2 : List TmplPart} {s1 s2 : String}
    (h1 : execTmpl a l1 = .ok s1) (h2 : execTmpl a l2 = .ok s2) :
    execTmpl a (l1 ++ l2) = .ok (s1 ++ s2) := by
  induction l1 generalizing s1 with
  | nil =>
    injection h1 with h1
    subst h1
    rw [List.nil_append, h2]
    exact congrArg _ (String.ext (by rw [String.data_append]; rfl)).symm
  | cons p rest ih =>
    rw [execTmpl] at h1
    cases hp : execPart a p with
    | error e => rw [hp] at h1; cases h1
    | ok sp =>
      rw [hp] at h1
      cases hr : execTmpl a rest with
      | error e => rw [hr] at h1; cases h1
      | ok sr =>
        rw [hr] at h1
        injection h1 with h1
        subst h1
        rw [List.cons_append, execTmpl, hp, ih hr]
        exact congrArg _ (String.ext (by simp [String.data_append, List.append_assoc]))

theorem execPart_field_present {a : Args} {n : List Char} {v : String}
    (h : lookupArg a (String.mk n) = some v) : execPart a (.field n []) = .ok v := by
  simp [execPart, h]

/-- C4: when the template parses, and contains a field placeholder whose
name is bound to `v` in the argument set, and the surrounding parts
render to `s1` and `s2`, the record's `msg` is the rendering with the
placeholder replaced by `v` while `msgTemplate` stays unrendered. -/
theorem template_placeholder_substituted (logger : Logger) (ctx : LogCtx) (mt : String)
    (err : Option String) (a : Args) (sd : Nat) (pre post : List TmplPart)
    (n : List Char) (v s1 s2 : String)
    (hp : parseTmpl mt = .ok (pre ++ TmplPart.field n [] :: post))
    (hv : lookupArg a (String.mk n) = some v)
    (h1 : execTmpl a pre = .ok s1) (h2 : execTmpl a post = .ok s2) :
    lookupArg (emittedRecord logger ctx mt err (some a) sd) "msg" = some (s1 ++ v ++ s2) ∧
    lookupArg (emittedRecord logger ctx mt err (some a) sd) "msgTemplate" = some mt := by
  have hfield : execTmpl a (TmplPart.field n [] :: post) = .ok (v ++ s2) := by
    rw [execTmpl, execPart_field_present hv, h2]
  have hall : execTmpl a (pre ++ TmplPart.field n [] :: post) = .ok (s1 ++ (v ++ s2)) :=
    execTmpl_append h1 hfield
  refine ⟨?_, lookupArg_emittedRecord_msgTemplate ..⟩
  rw [lookupArg_emittedRecord_msg, renderMsg_ok hp hall]
  exact congrArg _ (String.ext (by simp [String.data_append, List.append_assoc]))

/-- Witness for C4: `"hi \x7b\x7b.user\x7d\x7d!"` with `user ↦ alice` renders to
`"hi alice!"`. -/
theorem template_placeholder_substituted_witness :
    lookupArg (emittedRecord infoLogger sampleCtx "hi \x7b\x7b.user\x7d\x7d!" none
      (some [("user", "alice")]) 0) "msg" = some ("hi " ++ "alice" ++ "!") ∧
    lookupArg (emittedRecord infoLogger sampleCtx "hi \x7b\x7b.user\x7d\x7d!" none
      (some [("user", "alice")]) 0) "msgTemplate" = some "hi \x7b\x7b.user\x7d\x7d!" :=
  template_placeholder_substituted infoLogger sampleCtx "hi \x7b\x7b.user\x7d\x7d!" none
    [("user", "alice")] 0 [.text 'h', .text 'i', .text ' '] [.text '!']
    ['u', 's', 'e', 'r'] "alice" "hi " "!" rfl (by decide) rfl rfl

/-- C10: a template parse or execution failure writes the `_templateErr`
key into the caller's own argument map (Go maps are references), and the
record carries it only under the prefixed name `arg__templateErr`; a
fully successful render leaves the caller's map untouched. -/
theorem template_failure_mutates_caller_map (logger : Logger) (ctx : LogCtx)
    (mt : String) (err : Option String) (a : Args) (sd : Nat) :
    (∀ e : String,
      (parseTmpl mt = .error e ∨ ∃ t, parseTmpl mt = .ok t ∧ execTmpl a t = .error e) →
      (argKeys a).Nodup →
      (logGenericArgs logger ctx mt err (some a) sd).finalArgs =
        some (insertArg a "_templateErr" e) ∧
      lookupArg (emittedRecord logger ctx mt err (some a) sd)
        (argFieldName "_templateErr") = some e ∧
      lookupArg (emittedRecord logger ctx mt err (some a) sd) "_templateErr" = none) ∧
    (∀ (t : List TmplPart) (r : String), parseTmpl mt = .ok t → execTmpl a t = .ok r →
      (logGenericArgs logger ctx mt err (some a) sd).finalArgs = some a) := by
  constructor
  · intro e h hnd
    obtain ⟨h1, _, h3⟩ := emittedRecord_failure logger ctx mt err a sd e h hnd
    refine ⟨?_, h1, h3⟩
    show (renderMsg mt (some a)).2 = _
    rw [renderMsg_failure h]
  · intro t r hp he
    show (renderMsg mt (some a)).2 = _
    rw [renderMsg_ok hp he]

/-- Witness for C10: a parse failure inserts `_templateErr` into the
caller's map; a successful render leaves it unchanged. -/
theorem template_failure_mutates_caller_map_witness :
    ((logGenericArgs infoLogger sampleCtx "x \x7b\x7b" none (some [("user", "alice")]) 0).finalArgs =
      some (insertArg [("user", "alice")] "_templateErr" "bad character in action") ∧
     lookupArg (emittedRecord infoLogger sampleCtx "x \x7b\x7b" none (some [("user", "alice")]) 0)
       (argFieldName "_templateErr") = some "bad character in action" ∧
     lookupArg (emittedRecord infoLogger sampleCtx "x \x7b\x7b" none (some [("user", "alice")]) 0)
       "_templateErr" = none) ∧
    (logGenericArgs infoLogger sampleCtx "ok" none (some [("user", "alice")]) 0).finalArgs =
      some [("user", "alice")] :=
  ⟨(template_failure_mutates_caller_map infoLogger sampleCtx "x \x7b\x7b" none
      [("user", "alice")] 0).1 "bad character in action" (Or.inl rfl) (by decide),
   (template_failure_mutates_caller_map infoLogger sampleCtx "ok" none
      [("user", "alice")] 0).2 [.text 'o', .text 'k'] "ok" rfl rfl⟩

/-! ### Stack-inspector lemmas and C7 -/

theorem takeWhile_append_of {p : Char → Bool} {l1 : List Char} (c : Char) (l2 : List Char)
    (h : ∀ x ∈ l1, p x = true) (hc : p c = false) :
    (l1 ++ c :: l2).takeWhile p = l1 := by
  induction l1 with
  | nil => simp [List.takeWhile_cons, hc]
  | cons a rest ih =>
    rw [List.cons_append, List.takeWhile_cons, h a (List.mem_cons_self _ _)]
    rw [ih (fun x hx => h x (List.mem_cons_of_mem _ hx))]
    simp

theorem dropWhile_append_of {p : Char → Bool} {l1 : List Char} (c : Char) (l2 : List Char)
    (h : ∀ x ∈ l1, p x = true) (hc : p c = false) :
    (l1 ++ c :: l2).dropWhile p = c :: l2 := by
  induction l1 with
  | nil => simp [List.dropWhile_cons, hc]
  | cons a rest ih =>
    rw [List.cons_append, List.dropWhile_cons, h a (List.mem_cons_self _ _)]
    exact ih (fun x hx => h x (List.mem_cons_of_mem _ hx))

theorem string_mk_data (s : String) : String.mk s.data = s := by
  cases s
  rfl

theorem data_append_assoc (d sep b : String) :
    (d ++ sep ++ b).data = d.data ++ sep.data ++ b.data := by
  rw [String.data_append, String.data_append]

theorem filepathBase_of_slash (d b : String) (hb : b.data ≠ [])
    (hslash : ∀ c ∈ b.data, c ≠ '/') :
    filepathBase (d ++ "/" ++ b) = b := by
  have hdata : (d ++ "/" ++ b).data = d.data ++ '/' :: b.data := by
    rw [data_append_assoc]
    simp
  have hne : (d ++ "/" ++ b) ≠ "" := by
    intro h
    have := congrArg String.data h
    rw [hdata] at this
    simp at this
  have hrev : (d ++ "/" ++ b).data.reverse = b.data.reverse ++ '/' :: d.data.reverse := by
    rw [hdata]
    rw [show (d.data ++ '/' :: b.data) = (d.data ++ ['/']) ++ b.data by simp]
    rw [List.reverse_append, List.reverse_append]
    simp
  have hmem : ∀ c ∈ b.data.reverse, (c == '/') = false := by
    intro c hc
    simpa using hslash c (List.mem_reverse.mp hc)
  obtain ⟨c0, cs, hcons⟩ : ∃ c0 cs, b.data.reverse = c0 :: cs := by
    cases hrevb : b.data.reverse with
    | nil => exact absurd (by simpa using hrevb) hb
    | cons c0 cs => exact ⟨c0, cs, rfl⟩
  have hdrop : (d ++ "/" ++ b).data.reverse.dropWhile (· == '/') =
      b.data.reverse ++ '/' :: d.data.reverse := by
    rw [hrev, hcons, List.cons_append, List.dropWhile_cons,
      hmem c0 (hcons ▸ List.mem_cons_self _ _)]
    rw [← List.cons_append, ← hcons]
    simp
  rw [filepathBase, if_neg hne]
  simp only [hdrop]
  rw [if_neg (by simp)]
  rw [takeWhile_append_of '/' d.data.reverse
    (fun x hx => by simpa using hslash x (List.mem_reverse.mp hx)) (by decide)]
  rw [List.reverse_reverse, string_mk_data]

theorem funcName_bare (q b : String) (hb : b.data ≠ [])
    (hchars : ∀ c ∈ b.data, c ≠ '.' ∧ c ≠ '/') :
    trimLeftDots (filepathExt (q ++ "." ++ b)) = b := by
  have hdata : (q ++ "." ++ b).data = q.data ++ '.' :: b.data := by
    rw [data_append_assoc]
    simp
  have hrev : (q ++ "." ++ b).data.reverse = b.data.reverse ++ '.' :: q.data.reverse := by
    rw [hdata, show (q.data ++ '.' :: b.data) = (q.data ++ ['.']) ++ b.data by simp,
      List.reverse_append, List.reverse_append]
    simp
  have hmem : ∀ c ∈ b.data.reverse, (c != '.' && c != '/') = true := by
    intro c hc
    have := hchars c (List.mem_reverse.mp hc)
    simp [this.1, this.2]
  have hdrop : (q ++ "." ++ b).data.reverse.dropWhile (fun c => c != '.' && c != '/') =
      '.' :: q.data.reverse := by
    rw [hrev]
    exact dropWhile_append_of _ _ hmem (by decide)
  have htake : (q ++ "." ++ b).data.reverse.takeWhile (fun c => c != '.' && c != '/') =
      b.data.reverse := by
    rw [hrev]
    exact takeWhile_append_of _ _ hmem (by decide)
  rw [filepathExt]
  simp only [hdrop, htake]
  rw [trimLeftDots]
  rw [show (String.mk ('.' :: b.data.reverse.reverse)).data = '.' :: b.data.reverse.reverse
    from rfl]
  rw [List.reverse_reverse, List.dropWhile_cons]
  rw [show (('.' : Char) == '.') = true from rfl]
  obtain ⟨c0, cs, hcons⟩ : ∃ c0 cs, b.data = c0 :: cs := by
    cases hd : b.data with
    | nil => exact absurd hd hb
    | cons c0 cs => exact ⟨c0, cs, rfl⟩
  rw [hcons, List.dropWhile_cons,
    show ((c0 == '.') = false) by simpa using (hchars c0 (hcons ▸ List.mem_cons_self _ _)).1]
  rw [← hcons]
  simp [string_mk_data]

theorem formatIntDec_natCast (n : Nat) : formatIntDec n = formatUintDec n := by
  rw [formatIntDec, if_neg (by exact not_lt.mpr (Int.natCast_nonneg n))]
  rw [Int.toNat_natCast]

/-- C7: the stack inspector returns the base file name, the bare function
name suffixed with parentheses, and the decimal line string when the
requested frame resolves, and exactly the sentinel triple
`("?", "?()", "0")` when it does not. -/
theorem getStackInfo_resolves_or_sentinel (stack : List Frame) (sd : Nat) :
    (runtimeCaller stack (sd + 1) = none → GetStackInfo stack sd = ("?", "?()", "0")) ∧
    (∀ (fr : Frame) (dir base qual bare : String),
      runtimeCaller stack (sd + 1) = some fr →
      fr.file = dir ++ "/" ++ base →
      fr.funcName = some (qual ++ "." ++ bare) →
      base.data ≠ [] → (∀ c ∈ base.data, c ≠ '/') →
      bare.data ≠ [] → (∀ c ∈ bare.data, c ≠ '.' ∧ c ≠ '/') →
      GetStackInfo stack sd = (base, bare ++ "()", formatUintDec fr.line)) := by
  constructor
  · intro h
    rw [GetStackInfo, h]
  · intro fr dir base qual bare hfr hfile hfn hbne hbs hne hch
    rw [GetStackInfo, hfr]
    simp only [hfn, hfile]
    rw [filepathBase_of_slash dir base hbne hbs, funcName_bare qual bare hne hch,
      formatIntDec_natCast]

/-- Witness for C7: frame 1 of the sample stack resolves to
`("main.go", "Run()", "42")`; an out-of-range depth yields the
sentinel. -/
theorem getStackInfo_resolves_or_sentinel_witness :
    GetStackInfo sampleCtx.stack 5 = ("?", "?()", "0") ∧
    GetStackInfo sampleCtx.stack 1 =
      ("main.go", "Run" ++ "()", formatUintDec 42) :=
  ⟨(getStackInfo_resolves_or_sentinel sampleCtx.stack 5).1 rfl,
   (getStackInfo_resolves_or_sentinel sampleCtx.stack 1).2
     { file := "/app/main.go", line := 42, funcName := some "app/pkg.Run" }
     "/app" "main.go" "app/pkg" "Run" rfl rfl rfl (by decide) (by decide) (by decide)
     (by decide)⟩

/-! ### C8: the level registry -/

/-- C8: the six level handles carry the six severity names in order, only
the fatal handle has the fatal flag set, and each accessor returns the
one registry value it was initialised with. -/
theorem level_registry_fixed :
    Trace = traceLogger ∧ Debug = debugLogger ∧ Info = infoLogger ∧
    Warn = warnLogger ∧ Error = errorLogger ∧ Fatal = fatalLogger ∧
    [Trace.Level, Debug.Level, Info.Level, Warn.Level, Error.Level, Fatal.Level] =
      ["trace", "debug", "info", "warn", "error", "fatal"] ∧
    [Trace.IsFatal, Debug.IsFatal, Info.IsFatal, Warn.IsFatal, Error.IsFatal,
      Fatal.IsFatal] = [false, false, false, false, false, true] := by
  decide

/-! ### Decimal round-trip lemmas and C9 -/

theorem digitChar_toNat (d : Nat) (h : d < 10) : (digitChar d).toNat = 48 + d := by
  interval_cases d <;> rfl

theorem digitChar_ne_dash (d : Nat) (h : d < 10) : digitChar d ≠ '-' := by
  interval_cases d <;> decide

theorem parseNatAux_append (l1 l2 : List Char) (acc : Nat) :
    parseNatAux (l1 ++ l2) acc = (parseNatAux l1 acc).bind (parseNatAux l2) := by
  induction l1 generalizing acc with
  | nil => rfl
  | cons c rest ih =>
    rw [List.cons_append]
    by_cases h : 48 ≤ c.toNat ∧ c.toNat ≤ 57 <;> simp [parseNatAux, h, ih]

theorem parseNatAux_digit (d : Nat) (h : d < 10) (acc : Nat) :
    parseNatAux [digitChar d] acc = some (acc * 10 + d) := by
  have hd := digitChar_toNat d h
  rw [parseNatAux, hd, if_pos (by omega)]
  rw [show 48 + d - 48 = d by omega]
  rfl

theorem natDigitsF_parse (fuel : Nat) :
    ∀ n acc : Nat, n < fuel →
      parseNatAux (natDigitsF fuel n) acc =
        some (acc * 10 ^ (natDigitsF fuel n).length + n) := by
  induction fuel with
  | zero => intro n acc h; omega
  | succ fuel ih =>
    intro n acc h
    by_cases h10 : n < 10
    · rw [natDigitsF, if_pos h10, parseNatAux_digit n h10]
      simp
    · rw [natDigitsF, if_neg h10]
      have hdiv : n / 10 < fuel := by omega
      rw [parseNatAux_append, ih (n / 10) acc hdiv, Option.some_bind,
        parseNatAux_digit (n % 10) (by omega)]
      have hlen : (natDigitsF fuel (n / 10) ++ [digitChar (n % 10)]).length =
          (natDigitsF fuel (n / 10)).length + 1 := by simp
      rw [hlen]
      congr 1
      rw [pow_succ]
      have hmod : n / 10 * 10 + n % 10 = n := by omega
      calc (acc * 10 ^ (natDigitsF fuel (n / 10)).length + n / 10) * 10 + n % 10
          = acc * (10 ^ (natDigitsF fuel (n / 10)).length * 10) + (n / 10 * 10 + n % 10) := by
            ring
        _ = acc * (10 ^ (natDigitsF fuel (n / 10)).length * 10) + n := by rw [hmod]

theorem natDigitsF_ne_nil (fuel n : Nat) : natDigitsF (fuel + 1) n ≠ [] := by
  rw [natDigitsF]
  by_cases h : n < 10 <;> simp [h]

theorem natDigitsF_ne_dash (fuel : Nat) :
    ∀ n c, c ∈ natDigitsF fuel n → c ≠ '-' := by
  induction fuel with
  | zero => intro n c hc; cases hc
  | succ fuel ih =>
    intro n c hc
    rw [natDigitsF] at hc
    by_cases h : n < 10
    · rw [if_pos h] at hc
      rw [List.mem_singleton.mp hc]
      exact digitChar_ne_dash n h
    · rw [if_neg h] at hc
      rcases List.mem_append.mp hc with hl | hr
      · exact ih _ c hl
      · rw [List.mem_singleton.mp hr]
        exact digitChar_ne_dash (n % 10) (by omega)

theorem parseNatAux_natDigits (n : Nat) : parseNatAux (natDigits n) 0 = some n := by
  rw [natDigits, natDigitsF_parse (n + 1) n 0 (by omega)]
  simp

theorem natDigits_ne_nil (n : Nat) : natDigits n ≠ [] := by
  rw [natDigits]
  exact natDigitsF_ne_nil n n

theorem parseUintDec_format (n : Nat) : parseUintDec (formatUintDec n) = some n := by
  rw [formatUintDec, parseUintDec,
    show (String.mk (natDigits n)).data = natDigits n from rfl,
    if_neg (natDigits_ne_nil n)]
  exact parseNatAux_natDigits n

theorem parseIntDec_format (i : ℤ) : parseIntDec (formatIntDec i) = some i := by
  rw [formatIntDec]
  by_cases h : i < 0
  · rw [if_pos h, parseIntDec]
    have hdata : ("-" ++ formatUintDec (-i).toNat).data = '-' :: natDigits (-i).toNat := by
      rw [String.data_append]
      rfl
    rw [hdata, parseIntChars, if_pos rfl, if_neg (natDigits_ne_nil _),
      parseNatAux_natDigits]
    have hcast : ((-i).toNat : ℤ) = -i := Int.toNat_of_nonneg (by omega)
    simp [hcast]
  · rw [if_neg h, parseIntDec,
      show (formatUintDec i.toNat).data = natDigits i.toNat from rfl]
    obtain ⟨c, cs, hlist⟩ : ∃ c cs, natDigits i.toNat = c :: cs := by
      cases hd : natDigits i.toNat with
      | nil => exact absurd hd (natDigits_ne_nil _)
      | cons c cs => exact ⟨c, cs, rfl⟩
    have hc : c ≠ '-' := by
      rw [natDigits] at hlist
      exact natDigitsF_ne_dash _ _ c (hlist ▸ List.mem_cons_self c cs)
    rw [hlist, parseIntChars, if_neg hc, ← hlist, parseNatAux_natDigits]
    have hcast : (i.toNat : ℤ) = i := Int.toNat_of_nonneg (by omega)
    simp [hcast]

/-- C9: formatting any value of each supported integer width to its
base-10 string and parsing it back reproduces the value exactly, for
every value in the width's range (the maximum magnitudes included). -/
theorem integer_format_roundtrip :
    (∀ i : ℤ, -(2 ^ 63) ≤ i → i < 2 ^ 63 → parseIntDec (Int i) = some i) ∧
    (∀ i : ℤ, -(2 ^ 31) ≤ i → i < 2 ^ 31 → parseIntDec (Int32 i) = some i) ∧
    (∀ i : ℤ, -(2 ^ 63) ≤ i → i < 2 ^ 63 → parseIntDec (Int64 i) = some i) ∧
    (∀ n : Nat, n < 2 ^ 32 → parseUintDec (Uint32 n) = some n) ∧
    (∀ n : Nat, n < 2 ^ 64 → parseUintDec (Uint64 n) = some n) :=
  ⟨fun i _ _ => parseIntDec_format i, fun i _ _ => parseIntDec_format i,
   fun i _ _ => parseIntDec_format i, fun n _ => parseUintDec_format n,
   fun n _ => parseUintDec_format n⟩

/-- Witness for C9 at the maximum-magnitude value of each width. -/
theorem integer_format_roundtrip_witness :
    parseIntDec (Int (-9223372036854775808)) = some (-9223372036854775808) ∧
    parseIntDec (Int32 2147483647) = some 2147483647 ∧
    parseIntDec (Int64 9223372036854775807) = some 9223372036854775807 ∧
    parseUintDec (Uint32 4294967295) = some 4294967295 ∧
    parseUintDec (Uint64 18446744073709551615) = some 18446744073709551615 :=
  ⟨integer_format_roundtrip.1 (-9223372036854775808) (by norm_num) (by norm_num),
   integer_format_roundtrip.2.1 2147483647 (by norm_num) (by norm_num),
   integer_format_roundtrip.2.2.1 9223372036854775807 (by norm_num) (by norm_num),
   integer_format_roundtrip.2.2.2.1 4294967295 (by norm_num),
   integer_format_roundtrip.2.2.2.2 18446744073709551615 (by norm_num)⟩

end Logging
